import Mathlib

/-!
Verification development for the s3desk end-to-end runner
(`e2e/runner/runner.py`).  The Python source is shallowly embedded:

* JSON values produced by `json.loads` become the inductive type `Json`;
* the `HTTPFailure` exception becomes the structure `HTTPF`, and the
  exception taxonomy of the runner becomes `RErr`;
* float arithmetic in the backoff schedule is modelled exactly over `ℚ`
  (the factor `1.3` becomes `13/10`);
* each network call is modelled by the value it returns (or the
  exception it raises), supplied as an explicit input, so stateful
  functions become pure functions of their observed response sequence;
* wall-clock deadlines with a 1-second sleep per iteration are modelled
  by an iteration budget (one unit of fuel per polling iteration).
-/

namespace S3Desk

/-- A JSON value, the result of a successful `json.loads`.  Python maps
JSON `null` to `None`, `true`/`false` to `bool`, numbers to `int` (the
runner never needs fractional numbers), strings to `str`, arrays to
`list` and objects to `dict`. -/
inductive Json where
  | null
  | bool (b : Bool)
  | num (n : Int)
  | str (s : String)
  | arr (xs : List Json)
  | obj (fields : List (String × Json))

/-- First-match lookup in the field list of a JSON object, the model of
Python's `dict.get` (JSON objects have unique keys, so first-match
agrees with `dict`). -/
def jlookup : List (String × Json) → String → Option Json
  | [], _ => none
  | (k, v) :: rest, key => if k = key then some v else jlookup rest key

/-- `j.get k` models `j.get(k)` at call sites that have already checked
`isinstance(j, dict)`; on a non-object it returns `none`, which matches
the source's `j.get("policy") if isinstance(j, dict) else None` guards. -/
def Json.get (j : Json) (k : String) : Option Json :=
  match j with
  | .obj fields => jlookup fields k
  | _ => none

/-- Model of the `HTTPFailure` exception: one normalized failure per
non-2xx HTTP response.  `error_code`, `normalized_code` and
`normalized_retryable` hold whatever JSON value the error envelope
carried (the source stores the raw `dict.get` results). -/
structure HTTPF where
  status : Nat
  method : String
  path : String
  headers : List (String × String)
  body_text : Option String
  error_code : Option Json
  normalized_code : Option Json
  normalized_retryable : Option Json
  retry_after : Option String
  request_id : Option String

/-- The exception taxonomy seen by the retry coordinator: an
`HTTPFailure`, or any other exception (`RuntimeError` and friends),
identified by its message. -/
inductive RErr where
  | http (f : HTTPF)
  | runtime (msg : String)

/-- `sleep_backoff(base_s, attempt, factor=1.3, max_s=5.0)`: the backoff
delay before the next attempt.  `attempt` starts at 1; Python's
`max(0, attempt - 1)` is natural-number truncated subtraction here.
Float arithmetic is modelled exactly over `ℚ`. -/
def sleep_backoff (base_s : ℚ) (attempt : Nat) : ℚ :=
  min (5 : ℚ) (base_s * (13 / 10 : ℚ) ^ (attempt - 1))

/-- The attempt loop of `retry`, entered at attempt index `i`.  The
operation is modelled by the outcome `ops i` of its `i`-th call.  The
result records the final outcome, the number of calls made, and the
list of delays slept (in order). -/
def retryAux (ops : Nat → Except RErr α) (attempts : Nat) (base : ℚ) (i : Nat) :
    Except RErr α × Nat × List ℚ :=
  match ops i with
  | .ok v => (.ok v, 1, [])
  | .error e =>
    if h : attempts ≤ i then
      (.error e, 1, [])
    else
      let r := retryAux ops attempts base (i + 1)
      (r.1, r.2.1 + 1, sleep_backoff base i :: r.2.2)
termination_by attempts - i
decreasing_by omega

/-- `retry(what, fn, attempts, base_delay_s)`.  When `attempts < 1` the
`for i in range(1, attempts + 1)` loop body never runs, `last_err` stays
`None`, and a synthetic `RuntimeError(f"{what} failed")` is raised with
zero calls to the operation. -/
def retry (what : String) (ops : Nat → Except RErr α) (attempts : Int) (base : ℚ) :
    Except RErr α × Nat × List ℚ :=
  if attempts < 1 then
    (.error (.runtime (what ++ " failed")), 0, [])
  else
    retryAux ops attempts.toNat base 1

/-- One-step unfolding of the attempt loop: a successful call returns
immediately. -/
theorem retryAux_ok {ops : Nat → Except RErr α} {attempts : Nat} {base : ℚ} {i : Nat}
    {v : α} (h : ops i = .ok v) :
    retryAux ops attempts base i = (.ok v, 1, []) := by
  rw [retryAux, h]

/-- One-step unfolding: a failure on the last allowed attempt re-raises
it with no further sleep. -/
theorem retryAux_err_last {ops : Nat → Except RErr α} {attempts : Nat} {base : ℚ} {i : Nat}
    {e : RErr} (h : ops i = .error e) (hle : attempts ≤ i) :
    retryAux ops attempts base i = (.error e, 1, []) := by
  rw [retryAux, h]
  dsimp only
  rw [dif_pos hle]

/-- One-step unfolding: a failure before the last attempt sleeps once
and continues with the next attempt. -/
theorem retryAux_err_step {ops : Nat → Except RErr α} {attempts : Nat} {base : ℚ} {i : Nat}
    {e : RErr} (h : ops i = .error e) (hlt : ¬ attempts ≤ i) :
    retryAux ops attempts base i =
      ((retryAux ops attempts base (i + 1)).1,
        (retryAux ops attempts base (i + 1)).2.1 + 1,
        sleep_backoff base i :: (retryAux ops attempts base (i + 1)).2.2) := by
  rw [retryAux, h]
  dsimp only
  rw [dif_neg hlt]

/-- Shifting the starting index through `List.range`: the delay schedule
starting at attempt `i` is the head delay followed by the schedule
starting at `i + 1`. -/
theorem range_map_backoff_shift (base : ℚ) (i k : Nat) :
    (List.range (k + 1)).map (fun t => sleep_backoff base (i + t)) =
      sleep_backoff base i ::
        (List.range k).map (fun t => sleep_backoff base (i + 1 + t)) := by
  rw [List.range_succ_eq_map, List.map_cons, List.map_map]
  refine congrArg₂ _ (by simp) ?_
  apply List.map_congr_left
  intro t _
  simp only [Function.comp_apply]
  congr 1
  omega

/-- If every call from index `i` through `i + k - 1` fails and call
`i + k` succeeds with `v` within the attempt budget, the loop returns
`v` after `k + 1` calls, sleeping `sleep_backoff base (i + t)` after the
`t`-th failure. -/
theorem retryAux_succeeds (ops : Nat → Except RErr α) (attempts : Nat) (base : ℚ) (v : α) :
    ∀ k i, (∀ j, i ≤ j → j < i + k → ∃ e, ops j = .error e) →
      ops (i + k) = .ok v → i + k ≤ attempts →
      retryAux ops attempts base i =
        (.ok v, k + 1, (List.range k).map (fun t => sleep_backoff base (i + t))) := by
  intro k
  induction k with
  | zero =>
    intro i _ hok _
    simp only [Nat.add_zero] at hok
    rw [retryAux_ok hok]
    simp
  | succ k ih =>
    intro i hfail hok hle
    obtain ⟨e, he⟩ := hfail i (le_refl i) (by omega)
    rw [retryAux_err_step he (by omega)]
    have hrec := ih (i + 1)
      (fun j hj1 hj2 => hfail j (by omega) (by omega))
      (by simpa [show i + 1 + k = i + (k + 1) by omega] using hok)
      (by omega)
    rw [hrec, range_map_backoff_shift]

/-- If every call from index `i` on fails with `errF j`, the loop makes
`d + 1` calls total (where `attempts = i + d`) and re-raises the last
error unchanged. -/
theorem retryAux_all_fail (ops : Nat → Except RErr α) (base : ℚ) (errF : Nat → RErr)
    (hfail : ∀ j, 1 ≤ j → ops j = .error (errF j)) :
    ∀ d i, 1 ≤ i →
      retryAux ops (i + d) base i =
        (.error (errF (i + d)), d + 1,
          (List.range d).map (fun t => sleep_backoff base (i + t))) := by
  intro d
  induction d with
  | zero =>
    intro i hi
    rw [retryAux_err_last (hfail i hi) (by omega)]
    simp
  | succ d ih =>
    intro i hi
    rw [retryAux_err_step (hfail i hi) (by omega)]
    have hrec := ih (i + 1) (by omega)
    rw [show i + 1 + d = i + (d + 1) by omega] at hrec
    rw [hrec, range_map_backoff_shift]

/-- C1.  An operation that fails exactly `k` times and then succeeds
(`k < attempts`, `attempts ≥ 1` forced by `k < attempts`): `retry`
returns the success value, and the delay slept after the `i`-th failure
(`i = 1..k`) is `min 5 (base * (13/10)^(i-1))` — the `t`-th entry of the
delay list below is the delay after failure `t + 1`. -/
theorem retry_fails_then_succeeds (what : String) (ops : Nat → Except RErr α)
    (k : Nat) (attempts : Int) (base : ℚ) (v : α)
    (hfail : ∀ j, 1 ≤ j → j ≤ k → ∃ e, ops j = .error e)
    (hok : ops (k + 1) = .ok v)
    (hk : (k : Int) < attempts) :
    retry what ops attempts base =
      (.ok v, k + 1, (List.range k).map (fun t => min (5 : ℚ) (base * (13 / 10 : ℚ) ^ t))) := by
  have h1 : ¬ attempts < 1 := by omega
  rw [retry, if_neg h1]
  have hbound : 1 + k ≤ attempts.toNat := by omega
  have hrun := retryAux_succeeds ops attempts.toNat base v k 1
    (fun j hj1 hj2 => hfail j hj1 (by omega))
    (by simpa [show 1 + k = k + 1 by omega] using hok)
    hbound
  have hmap : (List.range k).map (fun t => sleep_backoff base (1 + t)) =
      (List.range k).map (fun t => min (5 : ℚ) (base * (13 / 10 : ℚ) ^ t)) := by
    apply List.map_congr_left
    intro t _
    simp [sleep_backoff]
  rw [hrun, hmap]

/-- C2.  An operation that fails on every call: `retry` calls it exactly
`attempts` times and then re-raises the exception object of the final
call itself, unchanged. -/
theorem retry_always_fails (what : String) (ops : Nat → Except RErr α)
    (attempts : Int) (base : ℚ) (errF : Nat → RErr)
    (hfail : ∀ j, 1 ≤ j → ops j = .error (errF j))
    (hatt : 1 ≤ attempts) :
    retry what ops attempts base =
      (.error (errF attempts.toNat), attempts.toNat,
        (List.range (attempts.toNat - 1)).map (fun t => sleep_backoff base (1 + t))) := by
  have h1 : ¬ attempts < 1 := by omega
  rw [retry, if_neg h1]
  have hn : 1 ≤ attempts.toNat := by omega
  have hrun := retryAux_all_fail ops base errF hfail (attempts.toNat - 1) 1 (le_refl 1)
  rw [show 1 + (attempts.toNat - 1) = attempts.toNat by omega] at hrun
  rw [hrun, show attempts.toNat - 1 + 1 = attempts.toNat by omega]

/-- C2 witness: with `attempts = 3` and an always-failing operation, the
operation is called exactly 3 times and the third call's error is
re-raised unchanged. -/
theorem retry_always_fails_witness :
    retry "Profile test" (fun j => (.error (.runtime (toString j)) : Except RErr Unit)) 3 1 =
      (.error (.runtime "3"), 3, [sleep_backoff 1 1, sleep_backoff 1 2]) := by
  have := retry_always_fails "Profile test"
    (fun j => (.error (.runtime (toString j)) : Except RErr Unit)) 3 1
    (fun j => .runtime (toString j)) (fun j _ => rfl) (by norm_num)
  rw [this]
  rfl

/-- C1 witness: an operation failing twice then succeeding, with
`attempts = 5`: the success value is returned and the two delays follow
the schedule `min 5 (1.3^(i-1))` for base delay 1. -/
theorem retry_fails_then_succeeds_witness :
    retry "Ensure bucket"
        (fun j => if j ≤ 2 then (.error (.runtime "boom") : Except RErr Nat) else .ok 42) 5 1 =
      (.ok 42, 3, [min 5 (1 * (13 / 10 : ℚ) ^ 0), min 5 (1 * (13 / 10 : ℚ) ^ 1)]) := by
  have := retry_fails_then_succeeds "Ensure bucket"
    (fun j => if j ≤ 2 then (.error (.runtime "boom") : Except RErr Nat) else .ok 42)
    2 5 1 42
    (fun j hj1 hj2 => ⟨.runtime "boom", by simp [hj2]⟩)
    (by norm_num)
    (by norm_num)
  rw [this]
  rfl

/-- Two failures agree on every field the retry loop could observe:
everything except `normalized_retryable` and `retry_after`. -/
def HTTPF.similar (f f' : HTTPF) : Prop :=
  f.status = f'.status ∧ f.method = f'.method ∧ f.path = f'.path ∧
    f.headers = f'.headers ∧ f.body_text = f'.body_text ∧
    f.error_code = f'.error_code ∧ f.normalized_code = f'.normalized_code ∧
    f.request_id = f'.request_id

/-- Lift of `HTTPF.similar` to the exception taxonomy. -/
def RErr.similar : RErr → RErr → Prop
  | .http f, .http f' => f.similar f'
  | .runtime m, .runtime m' => m = m'
  | _, _ => False

/-- Lift of `RErr.similar` to call outcomes: equal success values, or
similar failures. -/
def outcomeSimilar : Except RErr α → Except RErr α → Prop
  | .ok v, .ok v' => v = v'
  | .error e, .error e' => e.similar e'
  | _, _ => False

/-- The retry loop is blind to `normalized_retryable` and `retry_after`:
similar call outcomes give the same number of calls, the same delays,
and similar final outcomes. -/
theorem retryAux_similar (ops ops' : Nat → Except RErr α) (attempts : Nat) (base : ℚ)
    (h : ∀ j, outcomeSimilar (ops j) (ops' j)) :
    ∀ d i, attempts - i = d →
      (retryAux ops attempts base i).2 = (retryAux ops' attempts base i).2 ∧
        outcomeSimilar (retryAux ops attempts base i).1 (retryAux ops' attempts base i).1 := by
  intro d
  induction d with
  | zero =>
    intro i hd
    have hle : attempts ≤ i := by omega
    have hj := h i
    cases hop : ops i <;> cases hop' : ops' i <;>
      rw [hop, hop'] at hj <;> simp only [outcomeSimilar] at hj
    · rw [retryAux_err_last hop hle, retryAux_err_last hop' hle]
      exact ⟨rfl, hj⟩
    · rw [retryAux_ok hop, retryAux_ok hop']
      exact ⟨rfl, hj⟩
  | succ d ih =>
    intro i hd
    have hj := h i
    cases hop : ops i <;> cases hop' : ops' i <;>
      rw [hop, hop'] at hj <;> simp only [outcomeSimilar] at hj
    · by_cases hle : attempts ≤ i
      · rw [retryAux_err_last hop hle, retryAux_err_last hop' hle]
        exact ⟨rfl, hj⟩
      · rw [retryAux_err_step hop hle, retryAux_err_step hop' hle]
        obtain ⟨hcounts, hsim⟩ := ih (i + 1) (by omega)
        have h1 : (retryAux ops attempts base (i + 1)).2.1 =
            (retryAux ops' attempts base (i + 1)).2.1 := by rw [hcounts]
        have h2 : (retryAux ops attempts base (i + 1)).2.2 =
            (retryAux ops' attempts base (i + 1)).2.2 := by rw [hcounts]
        exact ⟨by rw [h1, h2], hsim⟩
    · rw [retryAux_ok hop, retryAux_ok hop']
      exact ⟨rfl, hj⟩

/-- C9.  Noninterference of `retry` in the retry-eligibility metadata:
two runs with the same label, attempts and base delay, whose operations
produce pointwise similar outcomes (identical up to
`normalized_retryable` and `retry_after`), make the same number of
calls, sleep the same delays, and end in similar final outcomes —
`retry` never inspects `normalized_retryable`. -/
theorem retry_noninterference (what : String) (ops ops' : Nat → Except RErr α)
    (attempts : Int) (base : ℚ)
    (h : ∀ j, outcomeSimilar (ops j) (ops' j)) :
    (retry what ops attempts base).2 = (retry what ops' attempts base).2 ∧
      outcomeSimilar (retry what ops attempts base).1 (retry what ops' attempts base).1 := by
  rw [retry, retry]
  by_cases h1 : attempts < 1
  · rw [if_pos h1, if_pos h1]
    exact ⟨rfl, rfl⟩
  · rw [if_neg h1, if_neg h1]
    exact retryAux_similar ops ops' attempts.toNat base h (attempts.toNat - 1) 1 rfl

/-- C9 witness: two always-failing operations whose `HTTPFailure`s
differ only in `normalized_retryable` and `retry_after` drive `retry`
to the same call count, the same delays, and similar outcomes. -/
theorem retry_noninterference_witness :
    (retry "Bucket policy" (fun _ => (.error (.http
        ⟨503, "GET", "/buckets/b/policy", [], some "busy", none, none,
          some (.bool true), some "1", none⟩) : Except RErr Unit)) 2 1).2 =
      (retry "Bucket policy" (fun _ => (.error (.http
        ⟨503, "GET", "/buckets/b/policy", [], some "busy", none, none,
          some (.bool false), none, none⟩) : Except RErr Unit)) 2 1).2 ∧
      outcomeSimilar
        (retry "Bucket policy" (fun _ => (.error (.http
          ⟨503, "GET", "/buckets/b/policy", [], some "busy", none, none,
            some (.bool true), some "1", none⟩) : Except RErr Unit)) 2 1).1
        (retry "Bucket policy" (fun _ => (.error (.http
          ⟨503, "GET", "/buckets/b/policy", [], some "busy", none, none,
            some (.bool false), none, none⟩) : Except RErr Unit)) 2 1).1 :=
  retry_noninterference "Bucket policy" _ _ 2 1
    (fun _ => ⟨rfl, rfl, rfl, rfl, rfl, rfl, rfl, rfl⟩)

/-- C10.  Calling `retry` with `attempts < 1` never invokes the
operation (the call count is 0, and the result does not depend on the
operation at all) and raises a synthetic `RuntimeError` whose message is
the label followed by `" failed"`. -/
theorem retry_no_attempts (what : String) (ops ops' : Nat → Except RErr α)
    (attempts : Int) (base : ℚ) (h : attempts < 1) :
    retry what ops attempts base = (.error (.runtime (what ++ " failed")), 0, []) ∧
      retry what ops attempts base = retry what ops' attempts base := by
  simp [retry, if_pos h]

/-- C10 witness: `attempts = 0` yields the synthetic error with zero
calls, independently of the operation. -/
theorem retry_no_attempts_witness :
    retry "Profile test" (fun _ => (.ok 7 : Except RErr Nat)) 0 1 =
        (.error (.runtime "Profile test failed"), 0, []) ∧
      retry "Profile test" (fun _ => (.ok 7 : Except RErr Nat)) 0 1 =
        retry "Profile test" (fun _ => (.error (.runtime "x") : Except RErr Nat)) 0 1 :=
  retry_no_attempts "Profile test" _ _ 0 1 (by norm_num)

/-- Modelled from the spec: Python's f-string rendering of a JSON value
(`str()` of the object `json.loads` produced).  Scalars are rendered
exactly as CPython renders them; the rendering of composite values
(Python `repr` of lists/dicts) is opaque here — no claim depends on
it. -/
def Json.render : Json → String
  | .null => "None"
  | .bool true => "True"
  | .bool false => "False"
  | .num n => toString n
  | .str s => s
  | .arr _ => "<list>"
  | .obj _ => "<dict>"

/-- Rendering of `dict.get` results inside an f-string: a missing key
renders as `None`. -/
def renderOpt : Option Json → String
  | none => "None"
  | some j => j.render

/-- The message of the `RuntimeError` raised when a job ends in a
terminal failure state:
`f"Job {job_id} ended with status={status}: {job.get('error')}"`. -/
def failMessage (jobId status err : String) : String :=
  "Job " ++ jobId ++ " ended with status=" ++ status ++ ": " ++ err

/-- The message of the `RuntimeError` raised when the 180 s deadline
elapses: `f"Job {job_id} did not finish within 180s"`. -/
def timeoutMessage (jobId : String) : String :=
  "Job " ++ jobId ++ " did not finish within 180s"

/-- Result of one `poll_job` run: normal return, terminal-failure
`RuntimeError`, or deadline-exceeded `RuntimeError`. -/
inductive PollOutc where
  | success
  | jobFailed (msg : String)
  | timedOut (msg : String)

/-- The polling loop of `poll_job`.  Each iteration issues one
`GET /jobs/{id}` whose parsed JSON object is `responses i`; the
`GET .../logs` call on a terminal failure is the oracle `fetch i`
(`.ok` = logs fetched, `.error` = the fetch itself raised — the source
catches that exception and only logs a warning, so both arms produce the
same result).  Wall-clock time is modelled as fuel: the 1-second sleep
per non-terminal iteration against the 180 s deadline gives 180
iterations.  Returns (outcome, number of job polls, number of log
fetches). -/
def pollAux (jobId : String) (responses : Nat → List (String × Json))
    (fetch : Nat → Except String String) : Nat → Nat → PollOutc × Nat × Nat
  | 0, _ => (.timedOut (timeoutMessage jobId), 0, 0)
  | fuel + 1, i =>
    let job := responses i
    match jlookup job "status" with
    | some (.str s) =>
      if s = "succeeded" then (.success, 1, 0)
      else if s = "failed" ∨ s = "canceled" then
        match fetch i with
        | .ok _ =>
          (.jobFailed (failMessage jobId s (renderOpt (jlookup job "error"))), 1, 1)
        | .error _ =>
          (.jobFailed (failMessage jobId s (renderOpt (jlookup job "error"))), 1, 1)
      else
        let r := pollAux jobId responses fetch fuel (i + 1)
        (r.1, r.2.1 + 1, r.2.2)
    | _ =>
      let r := pollAux jobId responses fetch fuel (i + 1)
      (r.1, r.2.1 + 1, r.2.2)

/-- `poll_job(job_id, profile_id=...)`: 180 iterations of the 1 s poll
loop starting at response index 0. -/
def poll_job (jobId : String) (responses : Nat → List (String × Json))
    (fetch : Nat → Except String String) : PollOutc × Nat × Nat :=
  pollAux jobId responses fetch 180 0

/-- A polled job object that keeps the loop going: its `status` field is
none of the three terminal strings (any non-string or missing status
also loops, but is excluded here only when quantified). -/
def nonterminalStep (job : List (String × Json)) : Prop :=
  ∀ s, jlookup job "status" = some (.str s) →
    s ≠ "succeeded" ∧ s ≠ "failed" ∧ s ≠ "canceled"

/-- A run over nonterminal responses burns all its fuel and times out
with zero log fetches, polling once per fuel unit. -/
theorem pollAux_timeout (jobId : String) (responses : Nat → List (String × Json))
    (fetch : Nat → Except String String) :
    ∀ fuel i, (∀ j, i ≤ j → j < i + fuel → nonterminalStep (responses j)) →
      pollAux jobId responses fetch fuel i =
        (.timedOut (timeoutMessage jobId), fuel, 0) := by
  intro fuel
  induction fuel with
  | zero => intro i _; rfl
  | succ fuel ih =>
    intro i hnt
    rw [pollAux]
    have hrec := ih (i + 1) (fun j hj1 hj2 => hnt j (by omega) (by omega))
    cases hst : jlookup (responses i) "status" with
    | none => dsimp only; rw [hrec]
    | some v =>
      cases v with
      | str s =>
        obtain ⟨h1, h2, h3⟩ := hnt i (le_refl i) (by omega) s hst
        dsimp only
        rw [if_neg h1, if_neg (by simp [h2, h3]), hrec]
      | null => dsimp only; rw [hrec]
      | bool b => dsimp only; rw [hrec]
      | num n => dsimp only; rw [hrec]
      | arr xs => dsimp only; rw [hrec]
      | obj fields => dsimp only; rw [hrec]

/-- C3.  The `poll_job` contract: (1) a job seen `succeeded` on the
first poll returns after exactly one poll and no log fetch; (2) a poll
seeing `failed` or `canceled` makes exactly one log fetch and raises a
failure message built from the terminal status and the job's reported
error text; (3) the outcome never depends on whether the log fetch
itself succeeds or fails (the fetch failure is non-fatal); (4) the
failure message contains the terminal status and the reported error
text; (5) 180 polls without a terminal status raise the timeout error;
(6) the timeout error is distinct from a job-failure error. -/
theorem poll_job_contract (jobId : String) :
    (∀ responses fetch, jlookup (responses 0) "status" = some (.str "succeeded") →
        poll_job jobId responses fetch = (.success, 1, 0)) ∧
      (∀ responses fetch fuel i s, (s = "failed" ∨ s = "canceled") →
        jlookup (responses i) "status" = some (.str s) →
        pollAux jobId responses fetch (fuel + 1) i =
          (.jobFailed (failMessage jobId s (renderOpt (jlookup (responses i) "error"))),
            1, 1)) ∧
      (∀ responses fetch fetch' fuel i,
        pollAux jobId responses fetch fuel i = pollAux jobId responses fetch' fuel i) ∧
      (∀ st err, ∃ p q, failMessage jobId st err = p ++ st ++ q) ∧
      (∀ st err, ∃ p q, failMessage jobId st err = p ++ err ++ q) ∧
      (∀ responses fetch, (∀ j, j < 180 → nonterminalStep (responses j)) →
        poll_job jobId responses fetch = (.timedOut (timeoutMessage jobId), 180, 0)) ∧
      (∀ m m', PollOutc.timedOut m ≠ PollOutc.jobFailed m') := by
  refine ⟨?_, ?_, ?_, ?_, ?_, ?_, ?_⟩
  · intro responses fetch h
    rw [poll_job, pollAux, h]
    dsimp only
    rw [if_pos rfl]
  · intro responses fetch fuel i s hs hst
    rw [pollAux, hst]
    dsimp only
    have hne : s ≠ "succeeded" := by
      rcases hs with h | h <;> subst h <;> decide
    rw [if_neg hne, if_pos hs]
    cases fetch i <;> rfl
  · intro responses fetch fetch' fuel i
    induction fuel generalizing i with
    | zero => rfl
    | succ fuel ih =>
      rw [pollAux, pollAux]
      cases hst : jlookup (responses i) "status" with
      | none => dsimp only; rw [ih]
      | some v =>
        cases v with
        | str s =>
          dsimp only
          by_cases h1 : s = "succeeded"
          · rw [if_pos h1, if_pos h1]
          · rw [if_neg h1, if_neg h1]
            by_cases h2 : s = "failed" ∨ s = "canceled"
            · rw [if_pos h2, if_pos h2]
              cases fetch i <;> cases fetch' i <;> rfl
            · rw [if_neg h2, if_neg h2, ih]
        | null => dsimp only; rw [ih]
        | bool b => dsimp only; rw [ih]
        | num n => dsimp only; rw [ih]
        | arr xs => dsimp only; rw [ih]
        | obj fields => dsimp only; rw [ih]
  · intro st err
    refine ⟨"Job " ++ jobId ++ " ended with status=", ": " ++ err, ?_⟩
    simp [failMessage, String.append_assoc]
  · intro st err
    refine ⟨"Job " ++ jobId ++ " ended with status=" ++ st ++ ": ", "", ?_⟩
    simp [failMessage, String.append_assoc]
  · intro responses fetch h
    exact pollAux_timeout jobId responses fetch 180 0 (fun j _ hj => h j (by omega))
  · intro m m' h
    exact PollOutc.noConfusion h

/-- C3 witness: concrete runs exercising each hypothesis of the
contract — immediate success with no log fetch, a failed job with
exactly one log fetch whose own failure is non-fatal, and a
never-terminal job timing out after 180 polls. -/
theorem poll_job_contract_witness :
    poll_job "j1" (fun _ => [("status", Json.str "succeeded")]) (fun _ => .ok "") =
        (.success, 1, 0) ∧
      pollAux "j1" (fun _ => [("status", Json.str "failed"), ("error", Json.str "boom")])
          (fun _ => .error "log fetch refused") 180 0 =
        (.jobFailed (failMessage "j1" "failed" "boom"), 1, 1) ∧
      poll_job "j1" (fun _ => [("status", Json.str "running")]) (fun _ => .ok "") =
        (.timedOut (timeoutMessage "j1"), 180, 0) := by
  obtain ⟨h1, h2, _, _, _, h6, _⟩ := poll_job_contract "j1"
  refine ⟨h1 _ _ rfl, ?_, ?_⟩
  · have := h2 (fun _ => [("status", Json.str "failed"), ("error", Json.str "boom")])
      (fun _ => .error "log fetch refused") 179 0 "failed" (Or.inl rfl) rfl
    simpa [renderOpt, Json.render] using this
  · refine h6 _ _ ?_
    intro j _
    intro s hs
    simp only [jlookup] at hs
    simp at hs
    subst hs
    refine ⟨by decide, by decide, by decide⟩

/-- The static-validation guard shared by the S3 and Azure adapters:
`if isinstance(v, dict) and v.get("ok") is False: raise ...`.  Returns
`false` exactly when the guard raises. -/
def validate_ok (v : Json) : Bool :=
  match v with
  | .obj vf =>
    match jlookup vf "ok" with
    | some (.bool false) => false
    | _ => true
  | _ => true

/-- `not isinstance(j, dict) or j.get("exists") is not True` — the guard
raising unless the envelope is an object whose `exists` is exactly the
boolean `True`.  Returns `true` exactly when the guard passes. -/
def envExistsTrue (j : Json) : Bool :=
  match j with
  | .obj f =>
    match jlookup f "exists" with
    | some (.bool true) => true
    | _ => false
  | _ => false

/-- `not isinstance(j, dict) or j.get("exists") is not False` — the dual
guard for `exists` being exactly the boolean `False`. -/
def envExistsFalse (j : Json) : Bool :=
  match j with
  | .obj f =>
    match jlookup f "exists" with
    | some (.bool false) => true
    | _ => false
  | _ => false

/-- `exercise_bucket_policy(profile_id, bucket)` — the S3-style policy
adapter.  Each `request_json` network call is modelled by the JSON value
it returned: `initial` (GET before), `v` (POST validate), `after_put`
(GET after PUT), `after_del` (GET after DELETE); the PUT and DELETE
responses are discarded by the source.  Checks appear in source
order. -/
def exercise_bucket_policy (bucket : String) (initial v after_put after_del : Json) :
    Except RErr Unit :=
  match initial with
  | .obj f0 =>
    match jlookup f0 "bucket" with
    | some (.str s) =>
      if s ≠ bucket then .error (.runtime "Unexpected bucket in policy response")
      else if (jlookup f0 "exists").isNone then
        .error (.runtime "Missing exists in policy response")
      else if validate_ok v = false then .error (.runtime "Static validation failed")
      else if envExistsTrue after_put = false then
        .error (.runtime "Policy should exist after PUT")
      else if envExistsFalse after_del = false then
        .error (.runtime "Policy should not exist after DELETE")
      else .ok ()
    | _ => .error (.runtime "Unexpected bucket in policy response")
  | _ => .error (.runtime "Unexpected bucket policy response")

/-- `envExistsTrue` passes exactly when the envelope reports
`exists = true` (a non-object envelope, a missing key, and any value
other than boolean `true` all fail). -/
theorem envExistsTrue_iff (j : Json) :
    envExistsTrue j = true ↔ j.get "exists" = some (.bool true) := by
  cases j with
  | obj fields =>
    simp only [envExistsTrue, Json.get]
    cases h : jlookup fields "exists" with
    | none => simp
    | some w => cases w with
      | bool b => cases b <;> simp
      | null => simp
      | num n => simp
      | str s => simp
      | arr xs => simp
      | obj f => simp
  | null => simp [envExistsTrue, Json.get]
  | bool b => simp [envExistsTrue, Json.get]
  | num n => simp [envExistsTrue, Json.get]
  | str s => simp [envExistsTrue, Json.get]
  | arr xs => simp [envExistsTrue, Json.get]

/-- Dual of `envExistsTrue_iff` for `exists = false`. -/
theorem envExistsFalse_iff (j : Json) :
    envExistsFalse j = true ↔ j.get "exists" = some (.bool false) := by
  cases j with
  | obj fields =>
    simp only [envExistsFalse, Json.get]
    cases h : jlookup fields "exists" with
    | none => simp
    | some w => cases w with
      | bool b => cases b <;> simp
      | null => simp
      | num n => simp
      | str s => simp
      | arr xs => simp
      | obj f => simp
  | null => simp [envExistsFalse, Json.get]
  | bool b => simp [envExistsFalse, Json.get]
  | num n => simp [envExistsFalse, Json.get]
  | str s => simp [envExistsFalse, Json.get]
  | arr xs => simp [envExistsFalse, Json.get]

/-- C5.  The S3 policy adapter completes without error exactly when the
initial envelope is well-formed for the bucket, static validation does
not report `ok=false`, the GET after PUT reports `exists` exactly the
boolean `true`, and the GET after DELETE reports `exists` exactly the
boolean `false`; any other `exists` value (missing field, non-boolean,
or wrong boolean) makes it raise. -/
theorem exercise_bucket_policy_ok_iff (bucket : String) (initial v after_put after_del : Json) :
    exercise_bucket_policy bucket initial v after_put after_del = .ok () ↔
      (initial.get "bucket" = some (.str bucket) ∧
        (initial.get "exists").isSome ∧
        validate_ok v = true ∧
        after_put.get "exists" = some (.bool true) ∧
        after_del.get "exists" = some (.bool false)) := by
  cases initial with
  | obj f0 =>
    simp only [exercise_bucket_policy, Json.get]
    cases hb : jlookup f0 "bucket" with
    | none => simp
    | some w =>
      cases w with
      | str s =>
        dsimp only
        by_cases hs : s = bucket
        · subst hs
          rw [if_neg (show ¬ (s ≠ s) from by simp)]
          cases hex : jlookup f0 "exists" with
          | none =>
            rw [if_pos (show (none : Option Json).isNone = true from rfl)]
            simp
          | some w2 =>
            rw [if_neg (show ¬ (some w2 : Option Json).isNone = true from by simp)]
            by_cases hv : validate_ok v = false
            · rw [if_pos hv]
              simp [hv]
            · rw [if_neg hv]
              rw [Bool.not_eq_false] at hv
              by_cases hap : envExistsTrue after_put = false
              · rw [if_pos hap]
                have hnotap : ¬ after_put.get "exists" = some (.bool true) := by
                  rw [← envExistsTrue_iff, hap]
                  simp
                simp only [Json.get] at hnotap
                simp [hnotap]
              · rw [if_neg hap]
                rw [Bool.not_eq_false] at hap
                rw [envExistsTrue_iff] at hap
                simp only [Json.get] at hap
                by_cases had : envExistsFalse after_del = false
                · rw [if_pos had]
                  have hnotad : ¬ after_del.get "exists" = some (.bool false) := by
                    rw [← envExistsFalse_iff, had]
                    simp
                  simp only [Json.get] at hnotad
                  simp [hnotad]
                · rw [if_neg had]
                  rw [Bool.not_eq_false] at had
                  rw [envExistsFalse_iff] at had
                  simp only [Json.get] at had
                  simp [hv, hap, had]
        · rw [if_pos (show s ≠ bucket from hs)]
          simp [hs]
      | null => simp
      | bool b => simp
      | num n => simp
      | arr xs => simp
      | obj f => simp
  | null => simp [exercise_bucket_policy, Json.get]
  | bool b => simp [exercise_bucket_policy, Json.get]
  | num n => simp [exercise_bucket_policy, Json.get]
  | str s => simp [exercise_bucket_policy, Json.get]
  | arr xs => simp [exercise_bucket_policy, Json.get]

/-- The Azure after-PUT stored-policy guard:
`isinstance(stored, list) and any(isinstance(x, dict) and
x.get("id") == "e2e-read" for x in stored)`. -/
def storedHasE2eRead (stored : Option Json) : Bool :=
  match stored with
  | some (.arr xs) =>
    xs.any (fun x =>
      match x with
      | .obj xf =>
        match jlookup xf "id" with
        | some (.str s) => s = "e2e-read"
        | _ => false
      | _ => false)
  | _ => false

/-- The Azure after-reset stored-policy guard, mirroring
`if stored2 not in ([], None): if isinstance(stored2, list) and
len(stored2) != 0: raise`.  An empty list, an absent key, a JSON `null`
(Python `None`), and every non-list value pass; only a nonempty list
raises.  Returns `false` exactly when the guard raises. -/
def resetStoredOk (stored : Option Json) : Bool :=
  match stored with
  | some (.arr []) => true
  | none => true
  | some .null => true
  | some (.arr (_ :: _)) => false
  | _ => true

/-- `pol.get("publicAccess") != "container"` raises; passes only on the
exact string. -/
def paIs (expected : String) (pf : List (String × Json)) : Bool :=
  match jlookup pf "publicAccess" with
  | some (.str s) => s = expected
  | _ => false

/-- `exercise_azure_container_policy(profile_id, bucket)` — the
Azure-style policy adapter.  Network calls are modelled by their
returned JSON: `initial` (GET), `v` (POST validate), `after_put`
(GET after PUT), `after_reset` (GET after the reset DELETE); the PUT and
DELETE responses are discarded by the source.  The `bucket` argument
only shapes request URLs in the source, so it does not appear here.
Checks appear in source order;
`after_reset.get("policy") if isinstance(after_reset, dict) else None`
is `Json.get`, which is `none` on non-objects. -/
def exercise_azure_container_policy (initial v after_put after_reset : Json) :
    Except RErr Unit :=
  match initial with
  | .obj _ =>
    if validate_ok v = false then .error (.runtime "Static validation failed")
    else if envExistsTrue after_put = false then
      .error (.runtime "Policy should exist after PUT")
    else
      match after_put.get "policy" with
      | some (.obj pf) =>
        if paIs "container" pf = false then
          .error (.runtime "Expected publicAccess=container")
        else if storedHasE2eRead (jlookup pf "storedAccessPolicies") = false then
          .error (.runtime "Expected stored access policy e2e-read")
        else
          match after_reset.get "policy" with
          | some (.obj p2) =>
            if paIs "private" p2 = false then
              .error (.runtime "Expected publicAccess=private after reset")
            else if resetStoredOk (jlookup p2 "storedAccessPolicies") = false then
              .error (.runtime "Expected storedAccessPolicies=[] after reset")
            else .ok ()
          | _ => .error (.runtime "Expected policy object after reset")
      | _ => .error (.runtime "Expected policy object")
  | _ => .error (.runtime "Unexpected bucket policy response")

/-- C6 counterexample.  The claim says the Azure adapter completes
without error only when the reset-state stored-access-policy list is
empty.  But the source only raises when the value is a nonempty *list*:
here the reset envelope carries `storedAccessPolicies = 5` — neither an
empty list, nor absent, nor null — and the adapter still completes
without error. -/
theorem azure_reset_nonlist_counterexample :
    exercise_azure_container_policy
        (.obj [])
        (.obj [("ok", .bool true)])
        (.obj [("exists", .bool true),
          ("policy", .obj [("publicAccess", .str "container"),
            ("storedAccessPolicies", .arr [.obj [("id", .str "e2e-read")]])])])
        (.obj [("policy", .obj [("publicAccess", .str "private"),
          ("storedAccessPolicies", .num 5)])]) = .ok () ∧
      (Json.obj [("publicAccess", .str "private"),
        ("storedAccessPolicies", .num 5)]).get "storedAccessPolicies" = some (.num 5) ∧
      (∀ xs : List Json, Json.num 5 ≠ .arr xs) ∧ Json.num 5 ≠ .null := by
  refine ⟨rfl, rfl, fun xs h => Json.noConfusion h, fun h => Json.noConfusion h⟩

/-- C6 (amended).  The Azure adapter completes without error exactly
when: the initial envelope is an object, validation does not report
`ok=false`, the after-PUT envelope reports `exists=true` with a policy
object whose `publicAccess` is `"container"` and whose stored list
contains an object with `id="e2e-read"`, and the after-reset envelope
has a policy object whose `publicAccess` is `"private"` and whose
`storedAccessPolicies` is *not a nonempty list* (an empty list, an
absent key, a JSON null, or any non-list value are all accepted; a
nonempty list raises). -/
theorem exercise_azure_container_policy_ok_iff (initial v after_put after_reset : Json) :
    exercise_azure_container_policy initial v after_put after_reset = .ok () ↔
      ((∃ f0, initial = .obj f0) ∧
        validate_ok v = true ∧
        after_put.get "exists" = some (.bool true) ∧
        (∃ pf, after_put.get "policy" = some (.obj pf) ∧
          jlookup pf "publicAccess" = some (.str "container") ∧
          storedHasE2eRead (jlookup pf "storedAccessPolicies") = true) ∧
        (∃ p2, after_reset.get "policy" = some (.obj p2) ∧
          jlookup p2 "publicAccess" = some (.str "private") ∧
          resetStoredOk (jlookup p2 "storedAccessPolicies") = true)) := by
  have paIff : ∀ (e : String) (pf : List (String × Json)),
      paIs e pf = true ↔ jlookup pf "publicAccess" = some (.str e) := by
    intro e pf
    cases h : jlookup pf "publicAccess" with
    | none => simp [paIs, h]
    | some w =>
      cases w with
      | str s =>
        simp only [paIs, h]
        constructor
        · intro hs
          simp only [decide_eq_true_eq] at hs
          rw [hs]
        · intro hs
          injection hs with hw
          injection hw with hs2
          simp [hs2]
      | null => simp [paIs, h]
      | bool b => simp [paIs, h]
      | num n => simp [paIs, h]
      | arr xs => simp [paIs, h]
      | obj f => simp [paIs, h]
  cases initial with
  | obj f0 =>
    simp only [exercise_azure_container_policy]
    by_cases hv : validate_ok v = false
    · rw [if_pos hv]
      simp [hv]
    · rw [if_neg hv]
      rw [Bool.not_eq_false] at hv
      by_cases hap : envExistsTrue after_put = false
      · rw [if_pos hap]
        have hnotap : ¬ after_put.get "exists" = some (.bool true) := by
          rw [← envExistsTrue_iff, hap]
          simp
        simp [hnotap]
      · rw [if_neg hap]
        rw [Bool.not_eq_false] at hap
        rw [envExistsTrue_iff] at hap
        cases hpol : after_put.get "policy" with
        | none => simp [hv, hap]
        | some w =>
          cases w with
          | obj pf =>
            dsimp only
            by_cases hpa : paIs "container" pf = false
            · rw [if_pos hpa]
              have : ¬ jlookup pf "publicAccess" = some (.str "container") := by
                rw [← paIff, hpa]
                simp
              simp [hv, hap, this]
            · rw [if_neg hpa]
              rw [Bool.not_eq_false] at hpa
              rw [paIff] at hpa
              by_cases hsr : storedHasE2eRead (jlookup pf "storedAccessPolicies") = false
              · rw [if_pos hsr]
                simp [hv, hap, hsr]
              · rw [if_neg hsr]
                rw [Bool.not_eq_false] at hsr
                cases hpol2 : after_reset.get "policy" with
                | none => simp [hv, hap, hpa, hsr]
                | some w2 =>
                  cases w2 with
                  | obj p2 =>
                    dsimp only
                    by_cases hpa2 : paIs "private" p2 = false
                    · rw [if_pos hpa2]
                      have : ¬ jlookup p2 "publicAccess" = some (.str "private") := by
                        rw [← paIff, hpa2]
                        simp
                      simp [hv, hap, hpa, hsr, this]
                    · rw [if_neg hpa2]
                      rw [Bool.not_eq_false] at hpa2
                      rw [paIff] at hpa2
                      by_cases hrs : resetStoredOk (jlookup p2 "storedAccessPolicies") = false
                      · rw [if_pos hrs]
                        simp [hv, hap, hpa, hsr, hpa2, hrs]
                      · rw [if_neg hrs]
                        rw [Bool.not_eq_false] at hrs
                        simp [hv, hap, hpa, hsr, hpa2, hrs]
                  | null => simp [hv, hap, hpa, hsr]
                  | bool b => simp [hv, hap, hpa, hsr]
                  | num n => simp [hv, hap, hpa, hsr]
                  | str s => simp [hv, hap, hpa, hsr]
                  | arr xs => simp [hv, hap, hpa, hsr]
          | null => simp [hv, hap]
          | bool b => simp [hv, hap]
          | num n => simp [hv, hap]
          | str s => simp [hv, hap]
          | arr xs => simp [hv, hap]
  | null => simp [exercise_azure_container_policy]
  | bool b => simp [exercise_azure_container_policy]
  | num n => simp [exercise_azure_container_policy]
  | str s => simp [exercise_azure_container_policy]
  | arr xs => simp [exercise_azure_container_policy]

/-- The outcome of one `request_json` call as seen by a caller's
`try/except`: a JSON success value, an `HTTPFailure`, or any other
exception. -/
inductive CallOutcome where
  | ok (j : Json)
  | http (f : HTTPF)
  | exc (msg : String)

/-- The final DELETE stage of `exercise_gcs_iam_policy`
(`runner.py:471-478`): the DELETE must be rejected.  A successful DELETE
raises `RuntimeError("Expected GCS IAM delete to fail")` (a plain
`RuntimeError`, not caught by `except HTTPFailure`); an `HTTPFailure`
passes only when `error_code` is exactly the string
`"bucket_policy_delete_unsupported"`; any other exception propagates.
`required` (the `E2E_GCS_IAM` strict toggle) is in scope in the source
but never consulted by this stage. -/
def gcs_delete_check (required : Bool) (o : CallOutcome) : Except RErr Unit :=
  match o with
  | .ok _ => .error (.runtime "Expected GCS IAM delete to fail")
  | .http f =>
    match f.error_code with
    | some (.str s) =>
      if s = "bucket_policy_delete_unsupported" then .ok ()
      else .error (.runtime ("Expected bucket_policy_delete_unsupported, got " ++ s))
    | _ => .error (.runtime "Expected bucket_policy_delete_unsupported")
  | .exc m => .error (.runtime m)

/-- C4.  The GCS adapter's DELETE stage succeeds exactly when the DELETE
call raised an `HTTPFailure` whose provider error code is exactly
`bucket_policy_delete_unsupported`; every other outcome (a successful
response, a non-HTTP exception, or an `HTTPFailure` with any other —
or missing, or non-string — error code) is a hard failure, and the
strict-mode toggle never changes the result. -/
theorem gcs_delete_check_contract (required : Bool) (o : CallOutcome) :
    (gcs_delete_check required o = .ok () ↔
        ∃ f, o = .http f ∧ f.error_code = some (.str "bucket_policy_delete_unsupported")) ∧
      (∀ required', gcs_delete_check required o = gcs_delete_check required' o) := by
  refine ⟨?_, fun _ => rfl⟩
  cases o with
  | ok j => simp [gcs_delete_check]
  | exc m => simp [gcs_delete_check]
  | http f =>
    simp only [gcs_delete_check]
    cases hc : f.error_code with
    | none =>
      simp only
      constructor
      · intro h
        exact absurd h (by simp)
      · rintro ⟨f', hf', hcode⟩
        injection hf' with hf2
        rw [← hf2] at hcode
        rw [hc] at hcode
        exact absurd hcode (by simp)
    | some w =>
      cases w with
      | str s =>
        dsimp only
        by_cases hs : s = "bucket_policy_delete_unsupported"
        · subst hs
          rw [if_pos rfl]
          simp [hc]
        · rw [if_neg hs]
          constructor
          · intro h
            exact absurd h (by simp)
          · rintro ⟨f', hf', hcode⟩
            injection hf' with hf2
            rw [← hf2, hc] at hcode
            injection hcode with hw
            injection hw with hs2
            exact absurd hs2 hs
      | null =>
        constructor
        · intro h; exact absurd h (by simp)
        · rintro ⟨f', hf', hcode⟩
          injection hf' with hf2
          rw [← hf2, hc] at hcode
          exact Json.noConfusion (Option.some.inj hcode)
      | bool b =>
        constructor
        · intro h; exact absurd h (by simp)
        · rintro ⟨f', hf', hcode⟩
          injection hf' with hf2
          rw [← hf2, hc] at hcode
          exact Json.noConfusion (Option.some.inj hcode)
      | num n =>
        constructor
        · intro h; exact absurd h (by simp)
        · rintro ⟨f', hf', hcode⟩
          injection hf' with hf2
          rw [← hf2, hc] at hcode
          exact Json.noConfusion (Option.some.inj hcode)
      | arr xs =>
        constructor
        · intro h; exact absurd h (by simp)
        · rintro ⟨f', hf', hcode⟩
          injection hf' with hf2
          rw [← hf2, hc] at hcode
          exact Json.noConfusion (Option.some.inj hcode)
      | obj fs =>
        constructor
        · intro h; exact absurd h (by simp)
        · rintro ⟨f', hf', hcode⟩
          injection hf' with hf2
          rw [← hf2, hc] at hcode
          exact Json.noConfusion (Option.some.inj hcode)

/-- A successful `urllib` response as consumed by `_request` and its
wrappers: status, headers and body, together with the body's decoding
oracles (`bodyText` models `body.decode("utf-8", errors="replace")`,
`bodyJson` models `json.loads` on the body — `none` when `json.loads`
would raise). -/
structure Resp where
  status : Nat
  headers : List (String × String)
  body : List Nat
  bodyText : String
  bodyJson : Option Json

/-- The outcome of one `urllib.request.urlopen` call: a response, an
`HTTPError` (response obtained, non-2xx status — the urllib contract),
or a `URLError` (no response at all). -/
inductive UrlOutcome where
  | success (r : Resp)
  | httpError (code : Nat) (headers : List (String × String))
      (bodyText : String) (bodyJson : Option Json)
  | urlError (msg : String)

/-- First-match lookup in a header mapping, the model of
`resp_headers.get(name)`. -/
def lookupH : List (String × String) → String → Option String
  | [], _ => none
  | (k, v) :: rest, key => if k = key then some v else lookupH rest key

/-- Python's `a or b` on optional strings: an empty string is falsy and
falls through to `b`. -/
def pyOr (a b : Option String) : Option String :=
  match a with
  | some s => if s = "" then b else some s
  | none => b

/-- Extraction of `(err_code, norm_code, norm_retryable)` from the
parsed error body, mirroring the
`isinstance(parsed, dict) and isinstance(parsed.get('error'), dict)`
dance; a failed `json.loads` (the `except` arm) leaves all three
`None`. -/
def errorFields (bodyJson : Option Json) : Option Json × Option Json × Option Json :=
  match bodyJson with
  | some parsed =>
    match parsed.get "error" with
    | some (.obj er) =>
      let err_code := jlookup er "code"
      match jlookup er "normalizedError" with
      | some (.obj norm) => (err_code, jlookup norm "code", jlookup norm "retryable")
      | _ => (err_code, none, none)
    | _ => (none, none, none)
  | none => (none, none, none)

/-- `_request(method, path, ...)`: one HTTP round trip.  An `HTTPError`
becomes an `HTTPFailure` carrying the response status and the
normalized fields; a `URLError` becomes a plain `RuntimeError`.  (The
returned `Resp` carries the body together with its decoding oracles,
used by the wrappers below.) -/
def _request (method path : String) (o : UrlOutcome) : Except RErr Resp :=
  match o with
  | .success r => .ok r
  | .httpError code headers bodyText bodyJson =>
    let ec := errorFields bodyJson
    .error (.http
      { status := code
        method := method
        path := path
        headers := headers
        body_text := some bodyText
        error_code := ec.1
        normalized_code := ec.2.1
        normalized_retryable := ec.2.2
        retry_after := lookupH headers "Retry-After"
        request_id := pyOr (pyOr (lookupH headers "X-Request-Id")
          (lookupH headers "X-Request-ID")) (lookupH headers "X-Amzn-Requestid") })
  | .urlError m =>
    .error (.runtime ("Network error " ++ method ++ " " ++ path ++ ": " ++ m))

/-- `request_json`: `_request`, then a defensive 2xx check raising a
plain `RuntimeError` (never an `HTTPFailure`), then `{}` for an empty
body or `json.loads` on it. -/
def request_json (method path : String) (o : UrlOutcome) : Except RErr Json :=
  match _request method path o with
  | .error e => .error e
  | .ok r =>
    if r.status < 200 ∨ 300 ≤ r.status then
      .error (.runtime ("Unexpected HTTP " ++ toString r.status ++ " " ++ method ++ " " ++ path))
    else if r.body = [] then .ok (.obj [])
    else
      match r.bodyJson with
      | some j => .ok j
      | none => .error (.runtime ("json decode error " ++ method ++ " " ++ path))

/-- `request_bytes`: `_request`, the same defensive 2xx check, then the
raw body. -/
def request_bytes (method path : String) (o : UrlOutcome) : Except RErr (List Nat) :=
  match _request method path o with
  | .error e => .error e
  | .ok r =>
    if r.status < 200 ∨ 300 ≤ r.status then
      .error (.runtime ("Unexpected HTTP " ++ toString r.status ++ " " ++ method ++ " " ++ path))
    else .ok r.body

/-- `request_text`: `_request`, the same defensive 2xx check, then the
decoded body (`decode(..., errors="replace")` never raises). -/
def request_text (method path : String) (o : UrlOutcome) : Except RErr String :=
  match _request method path o with
  | .error e => .error e
  | .ok r =>
    if r.status < 200 ∨ 300 ≤ r.status then
      .error (.runtime ("Unexpected HTTP " ++ toString r.status ++ " " ++ method ++ " " ++ path))
    else .ok r.bodyText

/-- C8.  Under the urllib contract (an `HTTPError` is only raised for a
non-2xx status), every `HTTPFailure` produced by `_request` or by any
of the `request_json` / `request_bytes` / `request_text` wrappers
carries a status outside `[200, 300)`: no code path builds an
`HTTPFailure` from a 2xx response (the wrappers' defensive status check
raises a plain `RuntimeError`, never an `HTTPFailure`). -/
theorem transport_httpfailure_non2xx (method path : String) (o : UrlOutcome)
    (hcontract : ∀ code headers bodyText bodyJson,
      o = .httpError code headers bodyText bodyJson → code < 200 ∨ 300 ≤ code) :
    (∀ f, _request method path o = .error (.http f) →
        f.status < 200 ∨ 300 ≤ f.status) ∧
      (∀ f, request_json method path o = .error (.http f) →
        f.status < 200 ∨ 300 ≤ f.status) ∧
      (∀ f, request_bytes method path o = .error (.http f) →
        f.status < 200 ∨ 300 ≤ f.status) ∧
      (∀ f, request_text method path o = .error (.http f) →
        f.status < 200 ∨ 300 ≤ f.status) := by
  cases o with
  | success r =>
    refine ⟨?_, ?_, ?_, ?_⟩ <;> intro f h
    · exact Except.noConfusion h
    · simp only [request_json, _request] at h
      split at h
      · simp_all
      · split at h
        · simp_all
        · split at h <;> simp_all
    · simp only [request_bytes, _request] at h
      split at h <;> simp_all
    · simp only [request_text, _request] at h
      split at h <;> simp_all
  | httpError code headers bodyText bodyJson =>
    have hcode := hcontract code headers bodyText bodyJson rfl
    refine ⟨?_, ?_, ?_, ?_⟩ <;> intro f h <;>
      simp only [_request, request_json, request_bytes, request_text] at h <;>
      injection h with h1 <;> injection h1 with h2 <;> rw [← h2] <;> exact hcode
  | urlError m =>
    refine ⟨?_, ?_, ?_, ?_⟩ <;> intro f h <;>
      simp only [_request, request_json, request_bytes, request_text] at h <;>
      injection h with h1 <;> exact RErr.noConfusion h1

/-- C8 witness: a concrete 404 `HTTPError` with an error envelope turns
into an `HTTPFailure` with status 404, which the theorem places outside
`[200, 300)`. -/
theorem transport_httpfailure_non2xx_witness :
    _request "DELETE" "/buckets/b/policy"
        (.httpError 404 [("Retry-After", "2")] "not found"
          (some (.obj [("error", .obj [("code", .str "not_found")])]))) =
      .error (.http
        { status := 404
          method := "DELETE"
          path := "/buckets/b/policy"
          headers := [("Retry-After", "2")]
          body_text := some "not found"
          error_code := some (.str "not_found")
          normalized_code := none
          normalized_retryable := none
          retry_after := some "2"
          request_id := none }) ∧
      ((404 : Nat) < 200 ∨ (300 : Nat) ≤ 404) := by
  constructor
  · rfl
  · refine (transport_httpfailure_non2xx "DELETE" "/buckets/b/policy"
      (.httpError 404 [("Retry-After", "2")] "not found"
        (some (.obj [("error", .obj [("code", .str "not_found")])])))
      ?_).1 _ rfl
    intro code headers bodyText bodyJson h
    injection h with h1
    omega

/-- UTF-8 bytes of an ASCII string (every string spliced into the
multipart body by the source is ASCII, where UTF-8 is the identity on
code points). -/
def strB (s : String) : List Nat := s.data.map Char.toNat

/-- The `\r\n` line terminator as bytes. -/
def CRLF : List Nat := [13, 10]

/-- `multipart_form(files)`: the multipart/form-data encoder.  The
boundary (a fresh `uuid4().hex` in the source) is a parameter here;
each file is `(filename bytes, content bytes)` — the filename is spliced
into the `Content-Disposition` header exactly as the f-string does.
Returns `(body, content_type)`. -/
def multipart_form (boundary : String) (files : List (List Nat × List Nat)) :
    List Nat × String :=
  let parts := (files.map (fun fc =>
    strB ("--" ++ boundary ++ "\r\n")
      ++ (strB "Content-Disposition: form-data; name=\"files\"; filename=\"" ++ fc.1
        ++ strB "\"\r\nContent-Type: application/octet-stream\r\n\r\n")
      ++ fc.2 ++ strB "\r\n")).flatten
  (parts ++ strB ("--" ++ boundary ++ "--\r\n"),
    "multipart/form-data; boundary=" ++ boundary)

/-- `hasPre s l`: `s` is an initial segment of `l`. -/
def hasPre [DecidableEq α] : List α → List α → Bool
  | [], _ => true
  | _ :: _, [] => false
  | s :: ss, x :: xx => if s = x then hasPre ss xx else false

/-- Split at the first occurrence of `sep`: `some (before, after)`, or
`none` when `sep` does not occur. -/
def splitFirst [DecidableEq α] (sep : List α) : List α → Option (List α × List α)
  | [] => if hasPre sep [] then some ([], []) else none
  | x :: rest =>
    if hasPre sep (x :: rest) then some ([], (x :: rest).drop sep.length)
    else (splitFirst sep rest).map (fun p => (x :: p.1, p.2))

/-- Split at every (leftmost-first, non-overlapping) occurrence of
`sep`; with no occurrence the result is the singleton `[xs]`. -/
def splitOnSeq [DecidableEq α] (sep : List α) : List α → List (List α)
  | [] => [[]]
  | x :: rest =>
    if h : sep ≠ [] ∧ hasPre sep (x :: rest) = true then
      [] :: splitOnSeq sep ((x :: rest).drop sep.length)
    else
      match splitOnSeq sep rest with
      | [] => [[x]]
      | c :: cs => (x :: c) :: cs
termination_by l => l.length
decreasing_by
  · simp only [List.length_drop, List.length_cons]
    have h1 : 0 < sep.length := List.length_pos.mpr h.1
    omega
  · simp only [List.length_cons]
    omega

/-- The bytes of `name="` — the marker a standard parser scans for to
extract the form field name. -/
def nameQuote : List Nat := strB "name=" ++ [34]

/-- Modelled from the spec: the form-field-name lookup of a standard
multipart parser — find `name="` in the part's header block and read up
to the closing quote. -/
def headerName (hdr : List Nat) : Option (List Nat) :=
  (splitFirst nameQuote hdr).map
    (fun p => p.2.takeWhile (fun b => b != 34))

/-- Modelled from the spec: one part of a standard multipart parse.
Each chunk between boundary delimiters starts with the `\r\n` that
closed the boundary line, then the header block, a blank line, and the
content.  Returns `(field name bytes, content bytes)`. -/
def parsePartChunk (chunk : List Nat) : Option (List Nat × List Nat) :=
  match chunk with
  | a :: b :: rest =>
    if a = 13 ∧ b = 10 then
      match splitFirst (CRLF ++ CRLF) rest with
      | some (hdr, content) =>
        match headerName hdr with
        | some nm => some (nm, content)
        | none => none
      | none => none
    else none
  | _ => none

/-- Modelled from the spec: the chunk list after splitting on the
delimiter — every chunk but the last is a part; the last must be the
`--` close marker. -/
def parseChunks : List (List Nat) → Option (List (List Nat × List Nat))
  | [] => none
  | [fin] => if hasPre (strB "--") fin then some [] else none
  | c :: c2 :: cs =>
    match parsePartChunk c, parseChunks (c2 :: cs) with
    | some p, some ps => some (p :: ps)
    | _, _ => none

/-- Modelled from the spec: read the boundary parameter out of the
returned content type. -/
def getBoundary (ct : String) : Option String :=
  let p := "multipart/form-data; boundary="
  if hasPre p.data ct.data then some (String.mk (ct.data.drop p.data.length)) else none

/-- Modelled from the spec: a standard multipart/form-data parser — take
the boundary from the content type, split the (CRLF-prefixed) body on
the `\r\n--boundary` delimiter, require an empty preamble and a `--`
close marker, and parse each chunk into a named part. -/
def parseMultipart (contentType : String) (body : List Nat) :
    Option (List (List Nat × List Nat)) :=
  match getBoundary contentType with
  | none => none
  | some boundary =>
    let sep := CRLF ++ strB "--" ++ strB boundary
    match splitOnSeq sep (CRLF ++ body) with
    | [] => none
    | pre :: chunks => if pre = [] then parseChunks chunks else none

/-- `strB` turns string concatenation into byte concatenation. -/
theorem strB_append (s t : String) : strB (s ++ t) = strB s ++ strB t := by
  simp [strB, String.data_append]

/-- `hasPre` holds on any extension of the pattern itself. -/
theorem hasPre_append_self [DecidableEq α] (s t : List α) : hasPre s (s ++ t) = true := by
  induction s with
  | nil => rfl
  | cons a ss ih => simp [hasPre, ih]

/-- Dropping within the left part of an append. -/
theorem dropAppendLe (x y : List α) (i : Nat) (h : i ≤ x.length) :
    (x ++ y).drop i = x.drop i ++ y := by
  induction x generalizing i with
  | nil =>
    simp at h
    subst h
    simp
  | cons a x' ih =>
    cases i with
    | zero => simp
    | succ i' =>
      simp only [List.cons_append, List.drop_succ_cons]
      exact ih i' (by simpa using h)

/-- Dropping past the left part of an append. -/
theorem dropAppendGe (x y : List α) (i : Nat) (h : x.length ≤ i) :
    (x ++ y).drop i = y.drop (i - x.length) := by
  induction x generalizing i with
  | nil => simp
  | cons a x' ih =>
    cases i with
    | zero => simp at h
    | succ i' =>
      simp only [List.cons_append, List.drop_succ_cons, List.length_cons]
      rw [ih i' (by simpa using h)]
      congr 1
      omega

/-- A pattern at least as long as `d` matches `d ++ r` exactly when it
matches `d` (impossible unless it fits, but stated as the equation the
rewriting needs). -/
theorem hasPre_of_long [DecidableEq α] (s : List α) :
    ∀ d r : List α, s.length ≤ d.length → hasPre s (d ++ r) = hasPre s d := by
  induction s with
  | nil => intro d r _; rfl
  | cons a ss ih =>
    intro d r h
    cases d with
    | nil => simp at h
    | cons b d' =>
      simp only [List.cons_append, hasPre, List.append_eq]
      by_cases hab : a = b
      · rw [if_pos hab, if_pos hab, ih d' r (by simpa using h)]
      · rw [if_neg hab, if_neg hab]

/-- A window that lies inside the concrete left part of an append. -/
theorem hasPre_drop_append (s c r : List Nat) (i : Nat) (h : i + s.length ≤ c.length) :
    hasPre s ((c ++ r).drop i) = hasPre s (c.drop i) := by
  rw [dropAppendLe c r i (by omega)]
  exact hasPre_of_long s (c.drop i) r (by simp [List.length_drop]; omega)

/-- No occurrence of a pattern headed by byte `b` can start inside a
block that does not contain `b`. -/
theorem hasPre_false_of_no_head (b : Nat) (s' : List Nat) :
    ∀ (l r : List Nat), b ∉ l → ∀ i, i < l.length →
      hasPre (b :: s') ((l ++ r).drop i) = false := by
  intro l
  induction l with
  | nil => intro r _ i hi; simp at hi
  | cons y l' ih =>
    intro r hl i hi
    simp only [List.mem_cons, not_or] at hl
    cases i with
    | zero =>
      simp only [List.drop_zero, List.cons_append]
      simp [hasPre, hl.1]
    | succ i' =>
      simp only [List.cons_append, List.drop_succ_cons]
      exact ih r hl.2 i' (by simpa using hi)

/-- No occurrence of `sep` starts strictly inside `a` in
`a ++ sep ++ b`. -/
def noEarlyOcc (sep a b : List Nat) : Prop :=
  ∀ i, i < a.length → hasPre sep ((a ++ (sep ++ b)).drop i) = false

/-- The splitter peels off a delimiter-free block followed by the
delimiter. -/
theorem splitOnSeq_append (sep : List Nat) (hsep : sep ≠ []) :
    ∀ a b : List Nat, noEarlyOcc sep a b →
      splitOnSeq sep (a ++ (sep ++ b)) = a :: splitOnSeq sep b := by
  intro a
  induction a with
  | nil =>
    intro b _
    simp only [List.nil_append]
    obtain ⟨s, ss, hs⟩ : ∃ s ss, sep = s :: ss := by
      cases sep with
      | nil => exact absurd rfl hsep
      | cons s ss => exact ⟨s, ss, rfl⟩
    rw [hs]
    simp only [List.cons_append]
    rw [splitOnSeq]
    rw [dif_pos ⟨by simp, by rw [← List.cons_append, ← hs]; exact hasPre_append_self sep b⟩]
    congr 1
    rw [← List.cons_append, ← hs, dropAppendGe sep b sep.length (le_refl _)]
    simp
  | cons x a' ih =>
    intro b hno
    have h0 := hno 0 (by simp)
    simp only [List.drop_zero, List.cons_append] at h0
    simp only [List.cons_append]
    rw [splitOnSeq]
    rw [dif_neg (by rw [h0]; simp)]
    have hno' : noEarlyOcc sep a' b := by
      intro i hi
      have := hno (i + 1) (by simp; omega)
      simpa using this
    rw [ih b hno']

/-- The first-occurrence splitter finds the delimiter right after a
delimiter-free block. -/
theorem splitFirst_append (sep : List Nat) :
    ∀ a b : List Nat, noEarlyOcc sep a b →
      splitFirst sep (a ++ (sep ++ b)) = some (a, b) := by
  intro a
  induction a with
  | nil =>
    intro b _
    simp only [List.nil_append]
    cases hsb : sep ++ b with
    | nil =>
      have hsep : sep = [] := by cases sep <;> simp_all
      have hb : b = [] := by cases sep <;> simp_all
      subst hsep
      rw [hb]
      rfl
    | cons z zs =>
      rw [← hsb, splitFirst.eq_def]
      rw [hsb]
      simp only
      rw [if_pos (by rw [← hsb]; exact hasPre_append_self sep b)]
      rw [← hsb, dropAppendGe sep b sep.length (le_refl _)]
      simp
  | cons x a' ih =>
    intro b hno
    have h0 := hno 0 (by simp)
    simp only [List.drop_zero, List.cons_append] at h0
    simp only [List.cons_append]
    rw [splitFirst]
    rw [if_neg (by rw [h0]; simp)]
    have hno' : noEarlyOcc sep a' b := by
      intro i hi
      have := hno (i + 1) (by simp; omega)
      simpa using this
    rw [ih b hno']
    rfl

/-- Occurrence-free input comes back whole from the splitter. -/
theorem splitOnSeq_no_occ (sep : List Nat) :
    ∀ xs : List Nat, (∀ i, i < xs.length → hasPre sep (xs.drop i) = false) →
      splitOnSeq sep xs = [xs] := by
  intro xs
  induction xs with
  | nil => intro _; rw [splitOnSeq]
  | cons x rest ih =>
    intro h
    have h0 := h 0 (by simp)
    simp only [List.drop_zero] at h0
    rw [splitOnSeq]
    rw [dif_neg (by rw [h0]; simp)]
    have hrest := ih (fun i hi => by
      have := h (i + 1) (by simp; omega)
      simpa using this)
    rw [hrest]

/-- `strB "\r\n"` is the CRLF byte pair. -/
theorem strB_crlf : strB "\r\n" = CRLF := rfl

/-- The fixed bytes before the field name in the encoded
`Content-Disposition` header. -/
def dispIntro : List Nat := strB "Content-Disposition: form-data; "

/-- The fixed bytes between the field name's closing quote and the
spliced filename. -/
def filesQuote : List Nat := strB "files\"; filename=\""

/-- The fixed bytes after the filename up to (excluding) the blank line
ending the header block. -/
def ctypeTail : List Nat := [34] ++ CRLF ++ strB "Content-Type: application/octet-stream"

/-- The encoded header block of one part:
`Content-Disposition ... filename="{fn}"\r\nContent-Type: ...\r\n\r\n`,
exactly the bytes `multipart_form` emits between the boundary line and
the content. -/
def hdrBlock (fn : List Nat) : List Nat :=
  strB "Content-Disposition: form-data; name=\"files\"; filename=\"" ++ fn
    ++ strB "\"\r\nContent-Type: application/octet-stream\r\n\r\n"

/-- Decomposition of the fixed header opening at the `name="` marker. -/
theorem dispSplit : strB "Content-Disposition: form-data; name=\"files\"; filename=\"" =
    dispIntro ++ (nameQuote ++ filesQuote) := rfl

/-- Decomposition of the fixed header tail at the final blank line. -/
theorem tailSplit : strB "\"\r\nContent-Type: application/octet-stream\r\n\r\n" =
    ctypeTail ++ (CRLF ++ CRLF) := rfl

/-- `name="` does not occur before its intended position in the fixed
header opening. -/
theorem nameQuote_no_early : ∀ i, i < 32 →
    hasPre nameQuote ((dispIntro ++ nameQuote).drop i) = false := by decide

/-- No blank line occurs inside the fixed header tail. -/
theorem ctypeTail_no_crlf2 : ∀ j, j < 41 →
    hasPre (CRLF ++ CRLF) ((ctypeTail ++ (CRLF ++ CRLF)).drop j) = false := by decide

/-- The fixed header pieces before the filename contain no CR byte. -/
theorem no13_dispIntro : (13 : Nat) ∉ dispIntro := by decide

/-- See `no13_dispIntro`. -/
theorem no13_nameQuote : (13 : Nat) ∉ nameQuote := by decide

/-- See `no13_dispIntro`. -/
theorem no13_filesQuote : (13 : Nat) ∉ filesQuote := by decide

/-- The header-plus-content block of the encoded part, decomposed at the
first blank line. -/
theorem hdrBlock_decomp (fn content : List Nat) :
    hdrBlock fn ++ content =
      (dispIntro ++ (nameQuote ++ (filesQuote ++ (fn ++ ctypeTail)))) ++
        ((CRLF ++ CRLF) ++ content) := by
  simp only [hdrBlock, dispSplit, tailSplit, List.append_assoc]

/-- For a CR-free filename, no blank line (`\r\n\r\n`) occurs inside the
header block before its final position. -/
theorem hdr_no_early_crlf2 (fn content : List Nat) (h13 : (13 : Nat) ∉ fn) :
    noEarlyOcc (CRLF ++ CRLF)
      (dispIntro ++ (nameQuote ++ (filesQuote ++ (fn ++ ctypeTail)))) content := by
  intro i hi
  have hassoc : (dispIntro ++ (nameQuote ++ (filesQuote ++ (fn ++ ctypeTail)))) ++
      ((CRLF ++ CRLF) ++ content) =
      (dispIntro ++ (nameQuote ++ (filesQuote ++ fn))) ++
        ((ctypeTail ++ (CRLF ++ CRLF)) ++ content) := by
    simp [List.append_assoc]
  have hlen1 : (dispIntro ++ (nameQuote ++ (filesQuote ++ fn))).length = 56 + fn.length := by
    simp only [List.length_append]
    rw [show dispIntro.length = 32 from rfl, show nameQuote.length = 6 from rfl,
      show filesQuote.length = 18 from rfl]
    omega
  have hitotal : i < 97 + fn.length := by
    have h2 := hi
    simp only [List.length_append] at h2
    rw [show dispIntro.length = 32 from rfl, show nameQuote.length = 6 from rfl,
      show filesQuote.length = 18 from rfl, show ctypeTail.length = 41 from rfl] at h2
    omega
  rw [hassoc]
  by_cases hreg : i < 56 + fn.length
  · rw [show (CRLF ++ CRLF : List Nat) = 13 :: [10, 13, 10] from rfl]
    refine hasPre_false_of_no_head 13 [10, 13, 10]
      (dispIntro ++ (nameQuote ++ (filesQuote ++ fn))) _ ?_ i (by rw [hlen1]; omega)
    intro hmem
    simp only [List.mem_append] at hmem
    rcases hmem with h | h | h | h
    · exact no13_dispIntro h
    · exact no13_nameQuote h
    · exact no13_filesQuote h
    · exact h13 h
  · push_neg at hreg
    rw [dropAppendGe _ _ i (by rw [hlen1]; omega), hlen1]
    have hj : i - (56 + fn.length) < 41 := by omega
    rw [hasPre_drop_append (CRLF ++ CRLF) (ctypeTail ++ (CRLF ++ CRLF)) content _
      (by
        rw [show ((CRLF ++ CRLF : List Nat)).length = 4 from rfl,
          show ((ctypeTail ++ (CRLF ++ CRLF) : List Nat)).length = 45 from rfl]
        omega)]
    exact ctypeTail_no_crlf2 _ hj

/-- `name="` does not occur early in the header block, whatever follows
the fixed opening. -/
theorem disp_no_early_nameQuote (tail2 : List Nat) :
    noEarlyOcc nameQuote dispIntro tail2 := by
  intro i hi
  have hi32 : i < 32 := by
    have h2 := hi
    rw [show dispIntro.length = 32 from rfl] at h2
    exact h2
  have hassoc : dispIntro ++ (nameQuote ++ tail2) = (dispIntro ++ nameQuote) ++ tail2 := by
    simp [List.append_assoc]
  rw [hassoc, hasPre_drop_append nameQuote (dispIntro ++ nameQuote) tail2 i
    (by
      rw [show (nameQuote : List Nat).length = 6 from rfl,
        show ((dispIntro ++ nameQuote : List Nat)).length = 38 from rfl]
      omega)]
  exact nameQuote_no_early i hi32

/-- The field name a standard parser reads back is `files`: the scan
stops at the quote that closes `name="files"`, before the filename. -/
theorem takeWhile_files (fn tail2 : List Nat) :
    (filesQuote ++ (fn ++ tail2)).takeWhile (fun b => b != 34) = strB "files" := by
  rw [show filesQuote = 102 :: 105 :: 108 :: 101 :: 115 :: 34 :: strB "; filename=\"" from rfl,
    show strB "files" = [102, 105, 108, 101, 115] from rfl]
  simp [List.takeWhile_cons]

/-- One encoded part chunk parses back to field name `files` and the
original content, for a CR-free filename. -/
theorem parsePartChunk_encoded (fn content : List Nat) (h13 : (13 : Nat) ∉ fn) :
    parsePartChunk (CRLF ++ hdrBlock fn ++ content) = some (strB "files", content) := by
  have hA : CRLF ++ hdrBlock fn ++ content = 13 :: 10 :: (hdrBlock fn ++ content) := by
    simp [CRLF, List.append_assoc]
  rw [hA, parsePartChunk, if_pos ⟨rfl, rfl⟩]
  rw [hdrBlock_decomp fn content,
    splitFirst_append (CRLF ++ CRLF) _ content (hdr_no_early_crlf2 fn content h13)]
  dsimp only
  rw [headerName,
    splitFirst_append nameQuote dispIntro (filesQuote ++ (fn ++ ctypeTail))
      (disp_no_early_nameQuote _)]
  simp only [Option.map_some']
  rw [takeWhile_files fn ctypeTail]

/-- C7.  Round trip of the multipart encoder: for a single file whose
filename bytes contain no double quote and no CR/LF, and a boundary
whose delimiter `\r\n--boundary` does not occur inside the encoded part
(the freshness a random `uuid4().hex` provides), a standard multipart
parse of the produced body, using the boundary taken from the returned
content type, yields exactly one part, named `files`, whose content
bytes equal the input content exactly. -/
theorem multipart_roundtrip (boundary : String) (fn content : List Nat)
    (h34 : (34 : Nat) ∉ fn) (h13 : (13 : Nat) ∉ fn) (h10 : (10 : Nat) ∉ fn)
    (hfresh : noEarlyOcc (CRLF ++ strB "--" ++ strB boundary)
      (CRLF ++ hdrBlock fn ++ content) (strB "--" ++ CRLF)) :
    parseMultipart (multipart_form boundary [(fn, content)]).2
        (multipart_form boundary [(fn, content)]).1 =
      some [(strB "files", content)] := by
  have hsep : (CRLF ++ strB "--" ++ strB boundary : List Nat) ≠ [] := by
    simp [CRLF]
  have hct : (multipart_form boundary [(fn, content)]).2 =
      "multipart/form-data; boundary=" ++ boundary := rfl
  have hgb : getBoundary ("multipart/form-data; boundary=" ++ boundary) = some boundary := by
    simp only [getBoundary, String.data_append]
    rw [if_pos (hasPre_append_self _ _)]
    rw [dropAppendGe _ _ _ (le_refl _)]
    simp
  have hbody : CRLF ++ (multipart_form boundary [(fn, content)]).1 =
      (CRLF ++ strB "--" ++ strB boundary) ++
        ((CRLF ++ hdrBlock fn ++ content) ++
          ((CRLF ++ strB "--" ++ strB boundary) ++ (strB "--" ++ CRLF))) := by
    have hdd : strB "--\r\n" = strB "--" ++ CRLF := rfl
    simp only [multipart_form, List.map_cons, List.map_nil, List.flatten_cons,
      List.flatten_nil, List.append_nil, strB_append, strB_crlf, hdd, hdrBlock,
      List.append_assoc]
  have hBfinocc : ∀ i, i < (strB "--" ++ CRLF : List Nat).length →
      hasPre (CRLF ++ strB "--" ++ strB boundary) ((strB "--" ++ CRLF).drop i) = false := by
    intro i hi
    have hi4 : i < 4 := by
      rw [show ((strB "--" ++ CRLF : List Nat)).length = 4 from rfl] at hi
      exact hi
    rw [show (CRLF ++ strB "--" ++ strB boundary : List Nat) =
      13 :: 10 :: 45 :: 45 :: strB boundary from rfl,
      show (strB "--" ++ CRLF : List Nat) = [45, 45, 13, 10] from rfl]
    interval_cases i <;> simp [hasPre]
  have hchunks : splitOnSeq (CRLF ++ strB "--" ++ strB boundary)
      (CRLF ++ (multipart_form boundary [(fn, content)]).1) =
      [[], CRLF ++ hdrBlock fn ++ content, strB "--" ++ CRLF] := by
    rw [hbody]
    have h1 := splitOnSeq_append (CRLF ++ strB "--" ++ strB boundary) hsep []
      ((CRLF ++ hdrBlock fn ++ content) ++
        ((CRLF ++ strB "--" ++ strB boundary) ++ (strB "--" ++ CRLF)))
      (fun i hi => absurd hi (by simp))
    simp only [List.nil_append] at h1
    rw [h1,
      splitOnSeq_append (CRLF ++ strB "--" ++ strB boundary) hsep
        (CRLF ++ hdrBlock fn ++ content) (strB "--" ++ CRLF) hfresh,
      splitOnSeq_no_occ (CRLF ++ strB "--" ++ strB boundary) (strB "--" ++ CRLF) hBfinocc]
  simp only [parseMultipart, hct, hgb]
  rw [hchunks]
  dsimp only
  rw [if_pos rfl]
  rw [parseChunks, parsePartChunk_encoded fn content h13, parseChunks,
    if_pos (hasPre_append_self _ _)]

/-- C7 witness: a concrete filename, content and boundary — the
freshness and character-class hypotheses hold by computation, and the
parse returns the single `files` part with the original bytes. -/
theorem multipart_roundtrip_witness :
    parseMultipart (multipart_form "b7a2" [(strB "hello.txt", strB "hi there")]).2
        (multipart_form "b7a2" [(strB "hello.txt", strB "hi there")]).1 =
      some [(strB "files", strB "hi there")] := by
  refine multipart_roundtrip "b7a2" (strB "hello.txt") (strB "hi there")
    (by decide) (by decide) (by decide) ?_
  unfold noEarlyOcc
  decide

end S3Desk
